import Mathlib

/-!
Verification development for the response-verification engine
(`tavern/response.py`).  Python values are shallowly embedded as the
inductive `Value`; Python dictionaries are insertion-ordered association
lists with unique keys; fallible Python code returns `Except`.
External collaborators that are not part of the sources here
(`recurse_access_key`, `format_keys`, `deep_dict_merge`,
`get_wrapped_response_function`) are modelled from the specification and
marked as such in their doc comments.
-/

namespace Tavern

/-- A single-quote character, used when building Python-style rendered
messages such as `Value mismatch: 'a' vs 'b'`. -/
def sq : String := String.singleton (Char.ofNat 39)

/-- Split a character list on a separator character (`"a.b" ↦ [a, b]`,
empty input gives one empty group, like Python's `str.split` with an
explicit separator). -/
def splitCharsOn (sep : Char) : List Char → List (List Char)
  | [] => [[]]
  | c :: rest =>
    let r := splitCharsOn sep rest
    if c == sep then [] :: r
    else
      match r with
      | [] => [[c]]
      | g :: gs => (c :: g) :: gs

/-- Split a string on a single-character separator. -/
def strSplitOnChar (sep : Char) (s : String) : List String :=
  (splitCharsOn sep s.toList).map (fun cs => String.mk cs)

/-- Join strings with a separator (`String.intercalate`, written out so
it reduces inside the kernel). -/
def joinSep (sep : String) : List String → String
  | [] => ""
  | [x] => x
  | x :: y :: rest => x ++ sep ++ joinSep sep (y :: rest)

/-- Whether the first character list starts the second. -/
def charsLeadWith : List Char → List Char → Bool
  | [], _ => true
  | _ :: _, [] => false
  | c :: cs, d :: ds => c == d && charsLeadWith cs ds

/-- Substring containment on character lists (Python `needle in s`). -/
def charsContains (needle : List Char) : List Char → Bool
  | [] => needle.isEmpty
  | c :: rest => charsLeadWith needle (c :: rest) || charsContains needle rest

/-- Parse a non-empty all-digit character list as a natural number. -/
def charsToNat? (cs : List Char) : Option Nat :=
  if cs.isEmpty || !cs.all (fun c => c.isDigit) then none
  else some (cs.foldl (fun acc c => acc * 10 + (c.toNat - 48)) 0)

/-- Parse a string as a natural number (digits only). -/
def strToNat? (s : String) : Option Nat := charsToNat? s.toList

/-- ASCII lowercase of a character. -/
def asciiLower (c : Char) : Char :=
  if 65 ≤ c.toNat ∧ c.toNat ≤ 90 then Char.ofNat (c.toNat + 32) else c

/-- ASCII lowercase of a string. -/
def strLower (s : String) : String :=
  String.mk (s.toList.map asciiLower)

/-- Shallow embedding of the JSON-like Python values the engine
manipulates: `None`, booleans, integers, strings, lists and (insertion
ordered) dictionaries with string keys. -/
inductive Value where
  | null
  | bool (b : Bool)
  | int (n : Int)
  | str (s : String)
  | list (xs : List Value)
  | dict (kvs : List (String × Value))
deriving Repr

/-- Lookup in an embedded Python dict (first matching key). -/
def dictFind (kvs : List (String × Value)) (k : String) : Option Value :=
  (kvs.find? (fun p => p.1 == k)).map (fun p => p.2)

/-- Key membership in an embedded Python dict. -/
def dictHas (kvs : List (String × Value)) (k : String) : Bool :=
  kvs.any (fun p => p.1 == k)

/-- Python `d[k] = v`: overwrite in place when the key is present,
append otherwise (insertion order preserved). -/
def dictSet (kvs : List (String × Value)) (k : String) (v : Value) :
    List (String × Value) :=
  if dictHas kvs k then kvs.map (fun p => if p.1 == k then (k, v) else p)
  else kvs ++ [(k, v)]

/-- Python `d.pop(k, ...)`: remove the entry with the given key. -/
def dictErase (kvs : List (String × Value)) (k : String) :
    List (String × Value) :=
  kvs.filter (fun p => !(p.1 == k))

/-- Python `d.update(new)`: merge `new` into `kvs`, later keys winning. -/
def dictUpdate (kvs : List (String × Value)) (new : List (String × Value)) :
    List (String × Value) :=
  new.foldl (fun acc p => dictSet acc p.1 p.2) kvs

/-- Python truthiness for embedded values. -/
def Value.isTruthy : Value → Bool
  | .null => false
  | .bool b => b
  | .int n => n != 0
  | .str s => !s.isEmpty
  | .list xs => !xs.isEmpty
  | .dict kvs => !kvs.isEmpty

mutual
/-- Python `==` on embedded values: `None` equals only `None`, booleans
compare numerically with integers, lists compare element-wise and dicts
compare as unordered key/value sets. -/
def pyEq : Value → Value → Bool
  | .null, .null => true
  | .bool a, .bool b => a == b
  | .bool a, .int b => (if a then (1 : Int) else 0) == b
  | .int a, .bool b => a == (if b then (1 : Int) else 0)
  | .int a, .int b => a == b
  | .str a, .str b => a == b
  | .list a, .list b => pyEqList a b
  | .dict a, .dict b => a.length == b.length && pyEqEntries a b
  | _, _ => false

def pyEqList : List Value → List Value → Bool
  | [], [] => true
  | x :: xs, y :: ys => pyEq x y && pyEqList xs ys
  | _, _ => false

def pyEqEntries : List (String × Value) → List (String × Value) → Bool
  | [], _ => true
  | (k, v) :: rest, b =>
    (match dictFind b k with
     | some w => pyEq v w
     | none => false) && pyEqEntries rest b
end

mutual
/-- Python `repr` of an embedded value (enough for the engine's
`%s`-style messages on the values the claims exercise). -/
def pyRepr : Value → String
  | .null => "None"
  | .bool b => if b then "True" else "False"
  | .int n => toString n
  | .str s => sq ++ s ++ sq
  | .list xs => "[" ++ pyReprList xs ++ "]"
  | .dict kvs => "\x7b" ++ pyReprEntries kvs ++ "\x7d"

def pyReprList : List Value → String
  | [] => ""
  | [x] => pyRepr x
  | x :: y :: rest => pyRepr x ++ ", " ++ pyReprList (y :: rest)

def pyReprEntries : List (String × Value) → String
  | [] => ""
  | [(k, v)] => sq ++ k ++ sq ++ ": " ++ pyRepr v
  | (k, v) :: p :: rest =>
    sq ++ k ++ sq ++ ": " ++ pyRepr v ++ ", " ++ pyReprEntries (p :: rest)
end

/-- Python `str` (i.e. what `%s` interpolates): like `repr` except that
strings render without quotes. -/
def pyStr : Value → String
  | .str s => s
  | v => pyRepr v

/-- Minimal JSON string escaping for `json.dumps`. -/
def jsonEscapeChar (c : Char) : String :=
  if c == '\\' then "\\\\"
  else if c == '\"' then "\\\""
  else if c == '\n' then "\\n"
  else String.singleton c

def jsonEscape (s : String) : String :=
  String.join (s.toList.map jsonEscapeChar)

mutual
/-- Python `json.dumps` with default separators, on embedded values
(`None` serialises as `null`). -/
def jsonDumps : Value → String
  | .null => "null"
  | .bool b => if b then "true" else "false"
  | .int n => toString n
  | .str s => "\"" ++ jsonEscape s ++ "\""
  | .list xs => "[" ++ jsonDumpsList xs ++ "]"
  | .dict kvs => "\x7b" ++ jsonDumpsEntries kvs ++ "\x7d"

def jsonDumpsList : List Value → String
  | [] => ""
  | [x] => jsonDumps x
  | x :: y :: rest => jsonDumps x ++ ", " ++ jsonDumpsList (y :: rest)

def jsonDumpsEntries : List (String × Value) → String
  | [] => ""
  | [(k, v)] => "\"" ++ jsonEscape k ++ "\": " ++ jsonDumps v
  | (k, v) :: p :: rest =>
    "\"" ++ jsonEscape k ++ "\": " ++ jsonDumps v ++ ", " ++
      jsonDumpsEntries (p :: rest)
end

/-- `textwrap.indent(s, pre)` with the default predicate: every line that
is not solely whitespace gets the given indentation. -/
def textwrapIndent (s : String) (pre : String) : String :=
  joinSep "\n" ((strSplitOnChar (Char.ofNat 10) s).map (fun line =>
    if line.toList.all (fun c => c.isWhitespace) then line else pre ++ line))

/-- `_indent_err_text` from `tavern/response.py`: replace a bare `null`
dump by `<No body>` and indent by four spaces. -/
def _indent_err_text (err : String) : String :=
  textwrapIndent (if err == "null" then "<No body>" else err) "    "

/-- An exception escaping the engine uncaught (the engine itself only
ever raises the aggregate test failure; these model Python exceptions
raised by slips inside it). -/
inductive RunErr where
  | typeError (msg : String)
  | keyError (msg : String)
  | indexError (msg : String)
  | attributeError (msg : String)
deriving Repr, DecidableEq

/-- The HTTP response as the engine sees it: integer status code, a
case-insensitive header mapping (lookup lowercases the wanted key), and
`json` — `some v` when the body parses as structured data (a JSON `null`
payload parses to `some .null`, matching Python where both a null body
and an unparseable body reach `verify` as `None`), `none` when
`response.json()` raises `ValueError`. -/
structure Response where
  status_code : Int
  headers : List (String × String)
  json : Option Value
deriving Repr

/-- Case-insensitive header lookup (requests' `CaseInsensitiveDict`). -/
def headerFind (hs : List (String × String)) (k : String) : Option String :=
  (hs.find? (fun p => strLower p.1 == strLower k)).map (fun p => p.2)

/-- The header mapping as an embedded value, for the block validator and
value saver (claims do not depend on case-insensitive key-path lookup
inside the header mapping, so keys are kept as given). -/
def headersValue (r : Response) : Value :=
  .dict (r.headers.map (fun p => (p.1, Value.str p.2)))

/-- Modelled from the spec: the result of the extension-resolution
collaborator `get_wrapped_response_function` (from
`tavern.schemas.extensions`, not among the sources here): a resolved
callable with a printable `func` reference; `run` returns the function's
value or, on a fault, the formatted trace text. -/
structure WrappedFunction where
  func : String
  run : Response → Except String Value

/-- Python `needle in container` for a string needle. -/
def pyInStr (needle : String) : Value → Except RunErr Bool
  | .dict kvs => .ok (dictHas kvs needle)
  | .list xs => .ok (xs.any (fun v => pyEq v (.str needle)))
  | .str s => .ok (charsContains needle.toList s.toList)
  | _ => .error (.typeError "argument is not iterable")

/-- Python `container[key]` for a string key. -/
def pySubscriptStr (v : Value) (k : String) : Except RunErr Value :=
  match v with
  | .dict kvs =>
    match dictFind kvs k with
    | some w => .ok w
    | none => .error (.keyError k)
  | .list _ => .error (.typeError "list indices must be integers, not str")
  | .str _ => .error (.typeError "string indices must be integers")
  | _ => .error (.typeError "object is not subscriptable")

/-- Failure modes of the KeyPath Resolver: `keyNotFound` is a Python
`KeyError`, `indexNotFound` a Python `IndexError`, `notIndexable` a
Python `TypeError` from descending into a scalar. -/
inductive ResolveErr where
  | keyNotFound
  | indexNotFound
  | notIndexable
deriving Repr, DecidableEq

/-- Modelled from the spec: the KeyPath Resolver (`recurse_access_key`
from `tavern.util.dict_util`, not among the sources here).  Walks the
nested structure segment by segment: mappings by key (missing key ⇒
`keyNotFound`), sequences by integer index (out-of-range or non-numeric
index ⇒ `indexNotFound`); descending into a scalar fails as
`notIndexable`.  A present `null` value resolves successfully,
distinguishing absence from a null value. -/
def recurse_access_key : Value → List String → Except ResolveErr Value
  | v, [] => .ok v
  | .dict kvs, k :: rest =>
    match dictFind kvs k with
    | some w => recurse_access_key w rest
    | none => .error .keyNotFound
  | .list xs, k :: rest =>
    match strToNat? k with
    | some i =>
      match xs.get? i with
      | some w => recurse_access_key w rest
      | none => .error .indexNotFound
    | none => .error .indexNotFound
  | _, _ :: _ => .error .notIndexable

mutual
/-- Modelled from the spec: the templating collaborator `format_keys`
(from `tavern.util.dict_util`, not among the sources here).  Per the
spec's interface it preserves the shape of the input and substitutes
only placeholder scalars: the substitution `f` is applied to every
string scalar; mapping keys and all other scalars are left unchanged. -/
def format_keys (f : String → String) : Value → Value
  | .str s => .str (f s)
  | .list xs => .list (format_keys_list f xs)
  | .dict kvs => .dict (format_keys_entries f kvs)
  | v => v

def format_keys_list (f : String → String) : List Value → List Value
  | [] => []
  | x :: xs => format_keys f x :: format_keys_list f xs

def format_keys_entries (f : String → String) :
    List (String × Value) → List (String × Value)
  | [] => []
  | (k, v) :: rest => (k, format_keys f v) :: format_keys_entries f rest
end

/-- `yield_keyvals` from `tavern/response.py`: a mapping yields
`(key.split "."), key, value` per entry; any other block is enumerated
positionally (strings are iterable in Python, scalars raise
`TypeError`). -/
def yield_keyvals : Value → Except RunErr (List (List String × String × Value))
  | .dict kvs => .ok (kvs.map (fun p => (strSplitOnChar (Char.ofNat 46) p.1, p.1, p.2)))
  | .list xs => .ok (xs.enum.map (fun p => ([toString p.1], toString p.1, p.2)))
  | .str s =>
    .ok (s.toList.enum.map
      (fun p => ([toString p.1], toString p.1, Value.str (String.singleton p.2))))
  | _ => .error (.typeError "object is not iterable")

/-- The per-key loop of `TResponse._validate_block` (lines 194-209 of
`tavern/response.py`): resolve each expected key-path against the block;
a `KeyError` is caught and recorded as `Key not present`, a successful
resolution is compared by `==` and a mismatch recorded unless the
expected value is `None` (the presence sentinel); an `IndexError` or
`TypeError` from the resolver is *not* caught there and escapes,
aborting the loop. -/
def validate_keys (block : Value) :
    List (List String × String × Value) → List String × Except RunErr Unit
  | [] => ([], .ok ())
  | (split_key, joined_key, expected_val) :: rest =>
    match recurse_access_key block split_key with
    | .error .keyNotFound =>
      let r := validate_keys block rest
      (("Key not present: " ++ joined_key) :: r.1, r.2)
    | .error .indexNotFound => ([], .error (.indexError "list index out of range"))
    | .error .notIndexable => ([], .error (.typeError "object is not subscriptable"))
    | .ok actual_val =>
      if pyEq actual_val expected_val then validate_keys block rest
      else
        match expected_val with
        | .null => validate_keys block rest
        | _ =>
          let r := validate_keys block rest
          (("Value mismatch: " ++ sq ++ pyStr actual_val ++ sq ++ " vs " ++
              sq ++ pyStr expected_val ++ sq) :: r.1, r.2)

/-- The comparison part of `TResponse._validate_block` (lines 184-209),
acting on the local post-pop `expected_block`: the truthiness gate,
`format_keys`, the `block is None` error (whose message renders the
stored — post-pop — section, here equal to `expected_block`), and the
per-key loop. -/
def validate_block_inner (expected_block : Value) (fmt : String → String)
    (blockname : String) (block : Value) : List String × Except RunErr Unit :=
  if !expected_block.isTruthy then ([], .ok ())
  else
    let fb := format_keys fmt expected_block
    match block with
    | .null =>
      (["expected " ++ pyStr expected_block ++ " in the " ++ blockname ++
          ", but there was no response body"], .ok ())
    | _ =>
      match yield_keyvals fb with
      | .error e => ([], .error e)
      | .ok items => validate_keys block items

/-- The `$ext` pop of `_validate_block` (lines 172-182): the stored
section value gives the new stored value (`some` exactly when Python's
in-place `pop` mutated the stored non-empty mapping) and the local
`expected_block` the comparison proceeds with. -/
def popExtOf (sect : Option Value) : Option Value × Value :=
  match sect with
  | some (.dict kvs) =>
    if kvs.isEmpty then (none, .dict [])
    else (some (.dict (dictErase kvs "$ext")), .dict (dictErase kvs "$ext"))
  | some v => (none, if v.isTruthy then v else .dict [])
  | none => (none, .dict [])

/-- `TResponse._validate_block`, acting on one section.  `sect` is the
stored expected value at `blockname` (`none` when the key is absent).
Returns the appended error messages, the new stored section value
(`some v` exactly when Python's `expected_block.pop("$ext")` mutated the
aliased stored mapping, i.e. when the stored value is a non-empty
mapping), and the loop's outcome.  Mirrors lines 160-209 of
`tavern/response.py`. -/
def validate_block_core (sect : Option Value) (fmt : String → String)
    (blockname : String) (block : Value) :
    List String × Option Value × Except RunErr Unit :=
  let popped := popExtOf sect
  let inner := validate_block_inner popped.2 fmt blockname block
  (inner.1, popped.1, inner.2)

/-- The per-entry loop of `TResponse._save_value` (lines 236-242):
resolve each wanted key-path; `KeyError` and `IndexError` are both
caught and recorded, other entries still resolve; a non-string wanted
path raises `AttributeError` (`.split` on a non-string) and a resolver
`TypeError` escapes. -/
def save_keyvals (key : String) (to_check : Value) :
    List (String × Value) → List String → List (String × Value) →
    List String × Except RunErr (List (String × Value))
  | [], errs, saved => (errs, .ok saved)
  | (save_as, v) :: rest, errs, saved =>
    match v with
    | .str joined =>
      match recurse_access_key to_check (strSplitOnChar (Char.ofNat 46) joined) with
      | .ok val => save_keyvals key to_check rest errs (dictSet saved save_as val)
      | .error .keyNotFound | .error .indexNotFound =>
        save_keyvals key to_check rest
          (errs ++ ["Wanted to save " ++ sq ++ joined ++ sq ++ " from " ++
            sq ++ key ++ sq ++ ", but it did not exist in the response"]) saved
      | .error .notIndexable =>
        (errs, .error (.typeError "object is not subscriptable"))
    | _ => (errs, .error (.attributeError "object has no attribute split"))

/-- `TResponse._save_value` for one section.  `saveOpt` is the stored
`expected["save"]` value (`none` when absent; the `KeyError` of
`espec["save"][key]` is caught and yields nothing to save).  A falsy
section records one `No ... in response` error; otherwise each wanted
path is resolved independently. -/
def save_value_core (saveOpt : Option Value) (key : String) (to_check : Value) :
    List String × Except RunErr (List (String × Value)) :=
  match saveOpt with
  | none => ([], .ok [])
  | some sv =>
    match pySubscriptStr sv key with
    | .error (.keyError _) => ([], .ok [])
    | .error e => ([], .error e)
    | .ok spec =>
      if !to_check.isTruthy then
        (["No " ++ key ++ " in response (wanted to save " ++ pyStr spec ++ ")"],
          .ok [])
      else
        match spec with
        | .dict entries => save_keyvals key to_check entries [] []
        | _ => ([], .error (.attributeError "object has no attribute items"))

/-- `urlparse(url).query`: the part after the first `?`, with any
fragment (after the first `#`) removed. -/
def urlQuery (url : String) : String :=
  let noFrag := (strSplitOnChar (Char.ofNat 35) url).headD ""
  match strSplitOnChar (Char.ofNat 63) noFrag with
  | [] => ""
  | [_] => ""
  | _ :: rest => joinSep "?" rest

/-- `\x7bi: j[0] for i, j in parse_qs(qp).items()\x7d`: split the query
string on `&`, drop fields without `=` or with an empty value, keep the
first value for each repeated key, keys in first-appearance order
(percent-decoding is not modelled; no claim depends on it). -/
def parseQsFirst (q : String) : List (String × String) :=
  (strSplitOnChar (Char.ofNat 38) q).foldl (fun acc field =>
    match strSplitOnChar (Char.ofNat 61) field with
    | [] => acc
    | [_] => acc
    | k :: rest =>
      let v := joinSep "=" rest
      if v.isEmpty then acc
      else if acc.any (fun p => p.1 == k) then acc
      else acc ++ [(k, v)]) []

/-- The redirect query-parameter extraction of `TResponse.verify`
(lines 117-127): look up the `location` header; when absent, record an
error only if saving `redirect_query_params` was requested, and use an
empty mapping; when present, parse its query string. -/
def redirect_extract (saveBlock : Value) (r : Response) :
    Except RunErr (List String × Value) :=
  match headerFind r.headers "location" with
  | some url =>
    .ok ([], .dict ((parseQsFirst (urlQuery url)).map (fun p => (p.1, Value.str p.2))))
  | none =>
    match pyInStr "redirect_query_params" saveBlock with
    | .error e => .error e
    | .ok false => .ok ([], .dict [])
    | .ok true =>
      match pySubscriptStr saveBlock "redirect_query_params" with
      | .error e => .error e
      | .ok spec =>
        .ok (["Wanted to save " ++ pyStr spec ++
          ", but there was no redirect url in response"], .dict [])

/-- The status-code check of `TResponse.verify` (lines 95-103): on a
mismatch, a 4xx actual code gets the pretty-printed body dump appended
to the message; any other mismatching code reports only the codes. -/
def statusErrors (expStatus : Value) (code : Int) (body : Value) : List String :=
  if pyEq (.int code) expStatus then []
  else if 400 ≤ code ∧ code < 500 then
    ["Status code was " ++ toString code ++ ", expected " ++ pyStr expStatus ++
      ":\n" ++ _indent_err_text (jsonDumps body)]
  else
    ["Status code was " ++ toString code ++ ", expected " ++ pyStr expStatus]

/-- The body-validator invocation of `TResponse.verify` (lines 105-112):
any fault of the extension function is caught and summarised with an
indented trace; its return value is ignored. -/
def validateFnErrors (vext : Option Value) (env : Value → WrappedFunction)
    (r : Response) : List String :=
  match vext with
  | none => []
  | some spec =>
    let w := env spec
    match w.run r with
    | .ok _ => []
    | .error tb =>
      ["Error calling validate function " ++ sq ++ w.func ++ sq ++ ":\n" ++
        _indent_err_text tb]

/-- The `$ext` save-function step of `TResponse.verify` (lines
133-149): `expected["save"]["$ext"]`'s `KeyError` is caught (no save
function); a fault of the function is caught and summarised; a mapping
return is merged into the saved values.  Note the faithful slip of line
148: any non-mapping return (including `None`) reaches
`isinstance(to_save, None)`, which raises `TypeError` because `None` is
not a type — so the `Unexpected return value` message of line 149 is
dead code. -/
def saveExtStep (saveOpt : Option Value) (env : Value → WrappedFunction)
    (r : Response) (saved : List (String × Value)) :
    List String × Except RunErr (List (String × Value)) :=
  match saveOpt with
  | none => ([], .ok saved)
  | some sv =>
    match pySubscriptStr sv "$ext" with
    | .error (.keyError _) => ([], .ok saved)
    | .error e => ([], .error e)
    | .ok extSpec =>
      let w := env extSpec
      match w.run r with
      | .error tb =>
        (["Error calling save function " ++ sq ++ w.func ++ sq ++ ":\n" ++
          _indent_err_text tb], .ok saved)
      | .ok (.dict d) => ([], .ok (dictUpdate saved d))
      | .ok _ =>
        ([], .error (.typeError "isinstance() arg 2 must be a type or tuple of types"))

/-- Everything `TResponse.verify` does before the three
`_validate_block` calls (lines 95-149): status check, body-validator
extension, redirect extraction, the three `_save_value` calls in
body/headers/redirect order, then the `$ext` save function.  `vext` is
the validate-function reference captured at construction, `expStatus`
the stored expected status code and `saveOpt` the stored `save` section.
Returns the errors appended so far, the redirect query-parameter
mapping and either the saved values or the uncaught exception. -/
def preChecks (vext : Option Value) (expStatus : Value) (saveOpt : Option Value)
    (r : Response) (env : Value → WrappedFunction) (body : Value) :
    List String × Value × Except RunErr (List (String × Value)) :=
  let e0 := statusErrors expStatus r.status_code body ++ validateFnErrors vext env r
  match redirect_extract (saveOpt.getD (.dict [])) r with
  | .error e => (e0, .dict [], .error e)
  | .ok (redirErrs, qp) =>
    let e1 := e0 ++ redirErrs
    match save_value_core saveOpt "body" body with
    | (es, .error e) => (e1 ++ es, qp, .error e)
    | (esb, .ok s1) =>
      match save_value_core saveOpt "headers" (headersValue r) with
      | (es, .error e) => (e1 ++ esb ++ es, qp, .error e)
      | (esh, .ok s2) =>
        match save_value_core saveOpt "redirect_query_params" qp with
        | (es, .error e) => (e1 ++ esb ++ esh ++ es, qp, .error e)
        | (esq, .ok s3) =>
          let e2 := e1 ++ esb ++ esh ++ esq
          let saved := dictUpdate (dictUpdate (dictUpdate [] s1) s2) s3
          let sx := saveExtStep saveOpt env r saved
          (e2 ++ sx.1, qp, sx.2)

/-- Store the new section value produced by `validate_block_core` back
into the expected spec (Python's in-place `pop` on the aliased stored
mapping). -/
def applySect (expected : List (String × Value)) (bn : String) :
    Option Value → List (String × Value)
  | none => expected
  | some v => dictSet expected bn v

/-- The parsed body `verify` works with: the decoded payload, or `None`
when `response.json()` raised `ValueError` (lines 90-93). -/
def responseBody (r : Response) : Value :=
  match r.json with
  | some v => v
  | none => .null

/-- The sequence of `_validate_block` calls of `TResponse.verify`
(lines 151-153) over a list of (section name, actual block) pairs, each
one's `$ext` pop written back into the stored expected spec, an uncaught
exception aborting the remaining blocks.  Returns the appended errors,
the final stored expected spec and the outcome. -/
def runBlocksList (fmt : String → String) :
    List (String × Value) → List (String × Value) →
    List String × List (String × Value) × Except RunErr Unit
  | [], E => ([], E, .ok ())
  | (bn, block) :: rest, E =>
    let vb := validate_block_core (dictFind E bn) fmt bn block
    let E1 := applySect E bn vb.2.1
    match vb.2.2 with
    | .error e => (vb.1, E1, .error e)
    | .ok _ =>
      let r := runBlocksList fmt rest E1
      (vb.1 ++ r.1, r.2.1, r.2.2)

/-- The three `_validate_block` calls of `TResponse.verify`, in
body/headers/redirect order. -/
def runBlocks (expected : List (String × Value)) (fmt : String → String)
    (body headers qp : Value) :
    List String × List (String × Value) × Except RunErr Unit :=
  runBlocksList fmt
    [("body", body), ("headers", headers), ("redirect_query_params", qp)] expected

/-- The whole of `TResponse.verify` up to the final raise, as a pure
function of the construction-captured validate reference, the stored
expected spec, the response, the extension-resolution environment and
the templating substitution: returns the appended error messages, the
final stored expected spec and either the saved values or the uncaught
exception.  The expected status code is read first (line 95), then the
pre-validation checks run, then the three block validations. -/
def verifyCore (vext : Option Value) (expected : List (String × Value))
    (r : Response) (env : Value → WrappedFunction) (fmt : String → String) :
    List String × List (String × Value) × Except RunErr (List (String × Value)) :=
  let body := responseBody r
  match dictFind expected "status_code" with
  | none => ([], expected, .error (.keyError "status_code"))
  | some expStatus =>
    match preChecks vext expStatus (dictFind expected "save") r env body with
    | (e1, _, .error e) => (e1, expected, .error e)
    | (e1, qp, .ok saved) =>
      let rb := runBlocks expected fmt body (headersValue r) qp
      (e1 ++ rb.1, rb.2.1,
        match rb.2.2 with
        | .error e => .error e
        | .ok _ => .ok saved)

/-- The verifier object: the test name, the validate-function reference
captured from the expected body's `$ext` at construction, the stored
(merged) expected spec, the response and status code recorded by the
last `verify` call, and the append-only error collector, which persists
across `verify` calls.  The templating variables of
`test_block_config` enter `verify` as the substitution argument. -/
structure TResponse where
  name : String
  validate_ext : Option Value
  expected : List (String × Value)
  response : Option Response
  status_code : Option Int
  errors : List String
deriving Repr

/-- `TResponse._str_errors`: the bulleted rendering of the collector. -/
def TResponse._str_errors (st : TResponse) : String :=
  "- " ++ joinSep "\n- " st.errors

mutual
/-- Structural size of a value, used as recursion fuel below. -/
def valSize : Value → Nat
  | .dict kvs => 1 + entsSize kvs
  | .list xs => 1 + valsSize xs
  | _ => 1

def valsSize : List Value → Nat
  | [] => 1
  | x :: xs => 1 + valSize x + valsSize xs

def entsSize : List (String × Value) → Nat
  | [] => 1
  | (_, v) :: rest => 1 + valSize v + entsSize rest
end

/-- The recursion of `deep_dict_merge`, driven by explicit fuel so that
it is structurally recursive (and hence reduces inside the kernel); the
fuel is never exhausted when it starts at `entsSize` of the merged-in
entries, which strictly bounds the recursion depth. -/
def deep_dict_merge_go : Nat → List (String × Value) → List (String × Value) →
    List (String × Value)
  | 0, initial, _ => initial
  | fuel + 1, initial, new =>
    match new with
    | [] => initial
    | (k, v) :: rest =>
      let acc :=
        match dictFind initial k, v with
        | some (.dict a), .dict b =>
          dictSet initial k (.dict (deep_dict_merge_go fuel a b))
        | _, _ => dictSet initial k v
      deep_dict_merge_go fuel acc rest

/-- Modelled from the spec: `deep_dict_merge` from
`tavern.util.dict_util` (not among the sources here): defaults are
merged beneath caller-supplied values without overwriting explicit
values — a deep merge where caller values win, recursing on nested
mappings. -/
def deep_dict_merge (initial new : List (String × Value)) :
    List (String × Value) :=
  deep_dict_merge_go (entsSize new) initial new

/-- `TResponse.__init__`: capture the expected body's `$ext` reference
(the resolution to a callable happens through the fixed environment at
invocation time, which is observationally identical), merge the
`status_code: 200` default beneath the caller's expected spec, and start
with an empty error collector.  A truthy non-mapping body makes
`"$ext" in body` an element/substring test, and a hit then raises on
the subscript — both modelled faithfully. -/
def TResponse.init (name : String) (expected : List (String × Value)) :
    Except RunErr TResponse :=
  let body : Value :=
    match dictFind expected "body" with
    | some v => if v.isTruthy then v else .dict []
    | none => .dict []
  match pyInStr "$ext" body with
  | .error e => .error e
  | .ok true =>
    match pySubscriptStr body "$ext" with
    | .error e => .error e
    | .ok extSpec =>
      .ok { name := name, validate_ext := some extSpec,
            expected := deep_dict_merge [("status_code", .int 200)] expected,
            response := none, status_code := none, errors := [] }
  | .ok false =>
    .ok { name := name, validate_ext := none,
          expected := deep_dict_merge [("status_code", .int 200)] expected,
          response := none, status_code := none, errors := [] }

/-- What a `verify` call raises: the single aggregate `TestFailError`,
or a Python exception escaping uncaught. -/
inductive VerifyErr where
  | testFail (msg : String)
  | uncaught (e : RunErr)
deriving Repr, DecidableEq

/-- `TResponse.verify`: record the response, run every check through
`verifyCore`, append the collected messages to the (persistent) error
collector and write back the expected spec; then raise the single
aggregate test failure when the collector is non-empty, or return the
saved values. -/
def TResponse.verify (st : TResponse) (r : Response)
    (env : Value → WrappedFunction) (fmt : String → String) :
    TResponse × Except VerifyErr (List (String × Value)) :=
  let res := verifyCore st.validate_ext st.expected r env fmt
  let st' : TResponse :=
    { st with response := some r, status_code := some r.status_code,
              expected := res.2.1, errors := st.errors ++ res.1 }
  match res.2.2 with
  | .error e => (st', .error (.uncaught e))
  | .ok saved =>
    if st'.errors.isEmpty then (st', .ok saved)
    else
      (st', .error (.testFail ("Test " ++ sq ++ st.name ++ sq ++ " failed:\n" ++
        TResponse._str_errors st')))

/-- `TResponse._validate_block` as a state transformer (wrapper around
`validate_block_core`, reading and writing the stored expected spec and
appending to the collector). -/
def TResponse._validate_block (st : TResponse) (blockname : String)
    (block : Value) (fmt : String → String) : TResponse × Except RunErr Unit :=
  let r := validate_block_core (dictFind st.expected blockname) fmt blockname block
  ({ st with expected := applySect st.expected blockname r.2.1,
             errors := st.errors ++ r.1 }, r.2.2)

/-- `TResponse._save_value` as a state transformer (wrapper around
`save_value_core`). -/
def TResponse._save_value (st : TResponse) (key : String) (to_check : Value) :
    TResponse × Except RunErr (List (String × Value)) :=
  let r := save_value_core (dictFind st.expected "save") key to_check
  ({ st with errors := st.errors ++ r.1 }, r.2)

/-- Removal of the reserved `$ext` key from one stored section, as block
validation performs it. -/
def popSect (expected : List (String × Value)) (bn : String) :
    List (String × Value) :=
  match dictFind expected bn with
  | some (.dict kvs) =>
    if kvs.isEmpty then expected
    else dictSet expected bn (.dict (dictErase kvs "$ext"))
  | _ => expected

/-- Removal of the reserved `$ext` key from all three stored sections,
in the order block validation visits them. -/
def popExts (expected : List (String × Value)) : List (String × Value) :=
  popSect (popSect (popSect expected "body") "headers") "redirect_query_params"

/-- The stored section value a second run of block validation reads
back: unchanged when the first run did not write the section, else the
written (popped) value. -/
def rerunSect (sect : Option Value) (fmt : String → String) (bn : String)
    (block : Value) : Option Value :=
  match (validate_block_core sect fmt bn block).2.1 with
  | none => sect
  | some v => some v

/-- The saved values visible to the caller of `verify`: `some` on
success, `none` when anything was raised. -/
def savedOf (o : Except VerifyErr (List (String × Value))) :
    Option (List (String × Value)) :=
  match o with
  | .ok s => some s
  | .error _ => none

/-- The key-path items block validation derives from a mapping section
(the mapping branch of `yield_keyvals`). -/
def dictItems (kvs : List (String × Value)) :
    List (List String × String × Value) :=
  kvs.map (fun p => (strSplitOnChar (Char.ofNat 46) p.1, p.1, p.2))

/-- Every entry of `d` whose key is `k` carries exactly the value `v`
(used to show that re-storing an already-stored section is a no-op). -/
def allSetP (d : List (String × Value)) (k : String) (v : Value) : Prop :=
  ∀ p ∈ d, p.1 = k → p = (k, v)

/-- An extension-resolution environment whose functions always fault
(used where no extension is ever reached or where a fault is wanted). -/
def stubEnv : Value → WrappedFunction :=
  fun _ => ⟨"stub", fun _ => Except.error "stub trace"⟩

/-- An extension-resolution environment whose functions return the
non-mapping value `5`. -/
def intEnv : Value → WrappedFunction :=
  fun _ => ⟨"mod:fn", fun _ => Except.ok (Value.int 5)⟩

theorem dictHas_iff_find (d : List (String × Value)) (k : String) :
    dictHas d k = true ↔ ∃ w, dictFind d k = some w := by
  induction d with
  | nil => simp [dictHas, dictFind]
  | cons p d ih =>
    obtain ⟨p1, p2⟩ := p
    by_cases hp : (p1 == k) = true
    · simp [dictHas, dictFind, List.any_cons, List.find?, hp]
    · have hp' : (p1 == k) = false := by simpa using hp
      simpa [dictHas, dictFind, List.any_cons, List.find?, hp'] using ih

theorem dictFind_append (d e : List (String × Value)) (k : String) :
    dictFind (d ++ e) k =
      match dictFind d k with
      | some v => some v
      | none => dictFind e k := by
  induction d with
  | nil => simp [dictFind]
  | cons p d ih =>
    obtain ⟨p1, p2⟩ := p
    by_cases hp : (p1 == k) = true
    · simp [dictFind, List.find?, hp]
    · have hp' : (p1 == k) = false := by simpa using hp
      simpa [dictFind, List.find?, hp'] using ih

theorem dictHas_append (d e : List (String × Value)) (k : String) :
    dictHas (d ++ e) k = (dictHas d k || dictHas e k) := by
  simp [dictHas, List.any_append]

theorem dictFind_map_subst_self (d : List (String × Value)) (k : String) (v : Value) :
    dictFind (d.map (fun p => if p.1 == k then (k, v) else p)) k =
      (dictFind d k).map (fun _ => v) := by
  induction d with
  | nil => simp [dictFind]
  | cons p d ih =>
    obtain ⟨p1, p2⟩ := p
    by_cases hp : (p1 == k) = true
    · simp [dictFind, List.find?, hp]
    · have hp' : (p1 == k) = false := by simpa using hp
      simpa [dictFind, List.find?, hp'] using ih

theorem dictFind_map_subst_ne (d : List (String × Value)) (k : String) (v : Value)
    (k' : String) (h : k' ≠ k) :
    dictFind (d.map (fun p => if p.1 == k then (k, v) else p)) k' = dictFind d k' := by
  have hk : (k == k') = false := by
    simp only [beq_eq_false_iff_ne, ne_eq]
    exact fun hc => h hc.symm
  induction d with
  | nil => simp [dictFind]
  | cons p d ih =>
    obtain ⟨p1, p2⟩ := p
    by_cases hp : (p1 == k) = true
    · have hpk : p1 = k := by simpa using hp
      subst hpk
      simpa [dictFind, List.find?, hp, hk] using ih
    · have hp' : (p1 == k) = false := by simpa using hp
      by_cases hq : (p1 == k') = true
      · simp [dictFind, List.find?, hp', hq]
      · have hq' : (p1 == k') = false := by simpa using hq
        simpa [dictFind, List.find?, hp', hq'] using ih

theorem dictHas_map_subst (d : List (String × Value)) (k : String) (v : Value)
    (k' : String) :
    dictHas (d.map (fun p => if p.1 == k then (k, v) else p)) k' = dictHas d k' := by
  induction d with
  | nil => rfl
  | cons p d ih =>
    obtain ⟨p1, p2⟩ := p
    simp only [dictHas, List.map_cons, List.any_cons] at ih ⊢
    by_cases hp : (p1 == k) = true
    · have hpk : p1 = k := by simpa using hp
      subst hpk
      rw [if_pos hp, ih]
    · rw [if_neg hp, ih]

theorem dictFind_dictSet_self (d : List (String × Value)) (k : String) (v : Value) :
    dictFind (dictSet d k v) k = some v := by
  unfold dictSet
  by_cases hh : dictHas d k = true
  · rw [if_pos hh, dictFind_map_subst_self]
    obtain ⟨w, hw⟩ := (dictHas_iff_find d k).mp hh
    rw [hw]
    rfl
  · rw [if_neg hh, dictFind_append]
    have hnone : dictFind d k = none := by
      cases hf : dictFind d k with
      | none => rfl
      | some w => exact absurd ((dictHas_iff_find d k).mpr ⟨w, hf⟩) hh
    rw [hnone]
    show dictFind [(k, v)] k = some v
    simp [dictFind, List.find?]

theorem dictFind_dictSet_ne (d : List (String × Value)) (k : String) (v : Value)
    (k' : String) (h : k' ≠ k) :
    dictFind (dictSet d k v) k' = dictFind d k' := by
  unfold dictSet
  by_cases hh : dictHas d k = true
  · rw [if_pos hh, dictFind_map_subst_ne d k v k' h]
  · rw [if_neg hh, dictFind_append]
    have hk : (k == k') = false := by
      simp only [beq_eq_false_iff_ne, ne_eq]
      exact fun hc => h hc.symm
    cases hf : dictFind d k' with
    | some w => rfl
    | none =>
      show dictFind [(k, v)] k' = none
      simp [dictFind, List.find?, hk]

theorem dictHas_dictSet_ne (d : List (String × Value)) (k : String) (v : Value)
    (k' : String) (h : k' ≠ k) :
    dictHas (dictSet d k v) k' = dictHas d k' := by
  unfold dictSet
  by_cases hh : dictHas d k = true
  · rw [if_pos hh, dictHas_map_subst]
  · rw [if_neg hh, dictHas_append]
    have hk : (k == k') = false := by
      simp only [beq_eq_false_iff_ne, ne_eq]
      exact fun hc => h hc.symm
    simp [dictHas, List.any_cons, hk]

theorem dictHas_dictSet_self (d : List (String × Value)) (k : String) (v : Value) :
    dictHas (dictSet d k v) k = true := by
  unfold dictSet
  by_cases hh : dictHas d k = true
  · rw [if_pos hh, dictHas_map_subst]
    exact hh
  · rw [if_neg hh, dictHas_append]
    simp [dictHas, List.any_cons]

theorem allSetP_dictSet_self (d : List (String × Value)) (k : String) (v : Value) :
    allSetP (dictSet d k v) k v := by
  intro p hp hk
  unfold dictSet at hp
  by_cases hh : dictHas d k = true
  · rw [if_pos hh] at hp
    obtain ⟨q, hq, hqe⟩ := List.mem_map.mp hp
    by_cases hq1 : (q.1 == k) = true
    · rw [if_pos hq1] at hqe
      exact hqe.symm
    · rw [if_neg hq1] at hqe
      subst hqe
      exact absurd (by simpa using hk) hq1
  · rw [if_neg hh] at hp
    rcases List.mem_append.mp hp with hp | hp
    · exact absurd (List.any_eq_true.mpr ⟨p, hp, by simpa using hk⟩) hh
    · simpa using hp

theorem map_subst_of_allSetP (d : List (String × Value)) (k : String) (v : Value)
    (hall : allSetP d k v) :
    d.map (fun p => if p.1 == k then (k, v) else p) = d := by
  induction d with
  | nil => rfl
  | cons p d ih =>
    have hset : allSetP d k v := fun q hq => hall q (List.mem_cons_of_mem _ hq)
    by_cases hp : (p.1 == k) = true
    · have hpe : p = (k, v) := hall p (List.mem_cons_self _ _) (by simpa using hp)
      rw [List.map_cons, if_pos hp, ih hset, hpe]
    · rw [List.map_cons, if_neg hp, ih hset]

theorem dictSet_of_allSetP (d : List (String × Value)) (k : String) (v : Value)
    (hall : allSetP d k v) (hhas : dictHas d k = true) :
    dictSet d k v = d := by
  unfold dictSet
  rw [if_pos hhas, map_subst_of_allSetP d k v hall]

theorem allSetP_applySect (X : List (String × Value)) (bn k : String) (v : Value)
    (o : Option Value) (hne : k ≠ bn) (hall : allSetP X k v) :
    allSetP (applySect X bn o) k v := by
  cases o with
  | none => exact hall
  | some w =>
    intro p hp hk
    simp only [applySect] at hp
    unfold dictSet at hp
    by_cases hh : dictHas X bn = true
    · rw [if_pos hh] at hp
      obtain ⟨q, hq, hqe⟩ := List.mem_map.mp hp
      by_cases hq1 : (q.1 == bn) = true
      · rw [if_pos hq1] at hqe
        subst hqe
        have hbk : bn = k := hk
        exact absurd hbk.symm hne
      · rw [if_neg hq1] at hqe
        subst hqe
        exact hall q hq hk
    · rw [if_neg hh] at hp
      rcases List.mem_append.mp hp with hp | hp
      · exact hall p hp hk
      · simp only [List.mem_singleton] at hp
        subst hp
        have hbk : bn = k := hk
        exact absurd hbk.symm hne

theorem dictHas_applySect_ne (X : List (String × Value)) (bn k : String)
    (o : Option Value) (hne : k ≠ bn) :
    dictHas (applySect X bn o) k = dictHas X k := by
  cases o with
  | none => rfl
  | some w => exact dictHas_dictSet_ne X bn w k hne

theorem dictFind_applySect_ne (X : List (String × Value)) (bn k : String)
    (o : Option Value) (hne : k ≠ bn) :
    dictFind (applySect X bn o) k = dictFind X k := by
  cases o with
  | none => rfl
  | some w => exact dictFind_dictSet_ne X bn w k hne

theorem dictErase_idem (kvs : List (String × Value)) (k : String) :
    dictErase (dictErase kvs k) k = dictErase kvs k := by
  unfold dictErase
  induction kvs with
  | nil => rfl
  | cons p rest ih =>
    by_cases hp : (p.1 == k) = true
    · simp [List.filter, hp, ih]
    · simp [List.filter, hp, ih]

theorem vbc_snd_fst (sect : Option Value) (fmt : String → String) (bn : String)
    (block : Value) :
    (validate_block_core sect fmt bn block).2.1 = (popExtOf sect).1 := rfl

theorem vbc_second (sect : Option Value) (fmt : String → String) (bn : String)
    (block : Value) :
    (validate_block_core (rerunSect sect fmt bn block) fmt bn block).1
        = (validate_block_core sect fmt bn block).1
    ∧ (validate_block_core (rerunSect sect fmt bn block) fmt bn block).2.2
        = (validate_block_core sect fmt bn block).2.2
    ∧ ((validate_block_core (rerunSect sect fmt bn block) fmt bn block).2.1 = none
       ∨ (validate_block_core (rerunSect sect fmt bn block) fmt bn block).2.1
           = (validate_block_core sect fmt bn block).2.1) := by
  cases sect with
  | none => exact ⟨rfl, rfl, Or.inl rfl⟩
  | some v =>
    cases v with
    | null => exact ⟨rfl, rfl, Or.inl rfl⟩
    | bool b => exact ⟨rfl, rfl, Or.inl rfl⟩
    | int n => exact ⟨rfl, rfl, Or.inl rfl⟩
    | str st => exact ⟨rfl, rfl, Or.inl rfl⟩
    | list xs => exact ⟨rfl, rfl, Or.inl rfl⟩
    | dict kvs =>
      by_cases he : kvs.isEmpty = true
      · have h1 : rerunSect (some (.dict kvs)) fmt bn block = some (.dict kvs) := by
          simp [rerunSect, validate_block_core, popExtOf, he]
        rw [h1]
        refine ⟨rfl, rfl, Or.inl ?_⟩
        simp [validate_block_core, popExtOf, he]
      · have he' : ¬ kvs.isEmpty = true := he
        have h1 : rerunSect (some (.dict kvs)) fmt bn block
            = some (.dict (dictErase kvs "$ext")) := by
          simp [rerunSect, validate_block_core, popExtOf, he']
        rw [h1]
        by_cases he2 : (dictErase kvs "$ext").isEmpty = true
        · refine ⟨?_, ?_, Or.inl ?_⟩ <;>
            simp [validate_block_core, popExtOf, he', he2, validate_block_inner,
              Value.isTruthy]
        · have hidem := dictErase_idem kvs "$ext"
          refine ⟨?_, ?_, Or.inr ?_⟩ <;>
            simp [validate_block_core, popExtOf, he', he2, hidem]

theorem stage_rerun (sect : Option Value) (Y : List (String × Value))
    (fmt : String → String) (bn : String) (block : Value)
    (hfind : dictFind Y bn = rerunSect sect fmt bn block)
    (hall : ∀ v, (validate_block_core sect fmt bn block).2.1 = some v →
        allSetP Y bn v ∧ dictHas Y bn = true) :
    (validate_block_core (dictFind Y bn) fmt bn block).1
        = (validate_block_core sect fmt bn block).1
    ∧ (validate_block_core (dictFind Y bn) fmt bn block).2.2
        = (validate_block_core sect fmt bn block).2.2
    ∧ applySect Y bn (validate_block_core (dictFind Y bn) fmt bn block).2.1 = Y := by
  obtain ⟨h1, h2, h3⟩ := vbc_second sect fmt bn block
  rw [hfind]
  refine ⟨h1, h2, ?_⟩
  rcases h3 with h3 | h3
  · rw [h3]
    rfl
  · rw [h3]
    cases hnb : (validate_block_core sect fmt bn block).2.1 with
    | none => rfl
    | some v =>
      obtain ⟨ha, hh⟩ := hall v hnb
      show dictSet Y bn v = Y
      exact dictSet_of_allSetP Y bn v ha hh

theorem dictFind_applySect_rerun (E : List (String × Value)) (bn : String)
    (fmt : String → String) (block : Value) :
    dictFind
      (applySect E bn (validate_block_core (dictFind E bn) fmt bn block).2.1) bn
      = rerunSect (dictFind E bn) fmt bn block := by
  cases hnb : (validate_block_core (dictFind E bn) fmt bn block).2.1 with
  | none => simp [applySect, rerunSect, hnb]
  | some v => simp [applySect, rerunSect, hnb, dictFind_dictSet_self]

theorem runBlocksList_preserve_find (fmt : String → String)
    (items : List (String × Value)) (X : List (String × Value)) (k : String)
    (hk : ∀ p ∈ items, p.1 ≠ k) :
    dictFind (runBlocksList fmt items X).2.1 k = dictFind X k := by
  induction items generalizing X with
  | nil => rfl
  | cons hd rest ih =>
    obtain ⟨bn, block⟩ := hd
    have hbn : bn ≠ k := hk (bn, block) (List.mem_cons_self _ _)
    have hk' : ∀ p ∈ rest, p.1 ≠ k := fun p hp => hk p (List.mem_cons_of_mem _ hp)
    have hstep : ∀ o, dictFind (applySect X bn o) k = dictFind X k :=
      fun o => dictFind_applySect_ne X bn k o (fun hc => hbn hc.symm)
    simp only [runBlocksList]
    cases hvb : (validate_block_core (dictFind X bn) fmt bn block).2.2 with
    | error e => simp [hvb, hstep]
    | ok u =>
      simp only [hvb]
      rw [ih _ hk', hstep]

theorem runBlocksList_preserve_allSet (fmt : String → String)
    (items : List (String × Value)) (X : List (String × Value)) (k : String)
    (v : Value) (hk : ∀ p ∈ items, p.1 ≠ k)
    (ha : allSetP X k v) (hh : dictHas X k = true) :
    allSetP (runBlocksList fmt items X).2.1 k v
    ∧ dictHas (runBlocksList fmt items X).2.1 k = true := by
  induction items generalizing X with
  | nil => exact ⟨ha, hh⟩
  | cons hd rest ih =>
    obtain ⟨bn, block⟩ := hd
    have hbn : k ≠ bn :=
      fun hc => hk (bn, block) (List.mem_cons_self _ _) hc.symm
    have hk' : ∀ p ∈ rest, p.1 ≠ k := fun p hp => hk p (List.mem_cons_of_mem _ hp)
    have ha1 : allSetP
        (applySect X bn (validate_block_core (dictFind X bn) fmt bn block).2.1) k v :=
      allSetP_applySect X bn k v _ hbn ha
    have hh1 : dictHas
        (applySect X bn (validate_block_core (dictFind X bn) fmt bn block).2.1) k
        = true := by
      rw [dictHas_applySect_ne X bn k _ hbn]
      exact hh
    simp only [runBlocksList]
    cases hvb : (validate_block_core (dictFind X bn) fmt bn block).2.2 with
    | error e =>
      simp only [hvb]
      exact ⟨ha1, hh1⟩
    | ok u =>
      simp only [hvb]
      exact ih _ hk' ha1 hh1

theorem runBlocksList_stable (fmt : String → String)
    (items : List (String × Value)) (E : List (String × Value))
    (hnd : items.Pairwise (fun p q => p.1 ≠ q.1)) :
    runBlocksList fmt items (runBlocksList fmt items E).2.1
      = runBlocksList fmt items E := by
  induction items generalizing E with
  | nil => rfl
  | cons hd rest ih =>
    obtain ⟨bn, block⟩ := hd
    obtain ⟨hhd, hrest⟩ := List.pairwise_cons.mp hnd
    have hkrest : ∀ p ∈ rest, p.1 ≠ bn :=
      fun p hp hc => (hhd p hp) hc.symm
    cases hvb : (validate_block_core (dictFind E bn) fmt bn block).2.2 with
    | error e =>
      have hEp : (runBlocksList fmt ((bn, block) :: rest) E).2.1
          = applySect E bn (validate_block_core (dictFind E bn) fmt bn block).2.1 := by
        simp [runBlocksList, hvb]
      rw [hEp]
      have hf : dictFind
          (applySect E bn (validate_block_core (dictFind E bn) fmt bn block).2.1) bn
          = rerunSect (dictFind E bn) fmt bn block :=
        dictFind_applySect_rerun E bn fmt block
      have hall : ∀ v,
          (validate_block_core (dictFind E bn) fmt bn block).2.1 = some v →
          allSetP (applySect E bn
            (validate_block_core (dictFind E bn) fmt bn block).2.1) bn v
          ∧ dictHas (applySect E bn
            (validate_block_core (dictFind E bn) fmt bn block).2.1) bn = true := by
        intro v hv
        rw [hv]
        exact ⟨allSetP_dictSet_self E bn v, dictHas_dictSet_self E bn v⟩
      obtain ⟨s1, s2, s3⟩ := stage_rerun (dictFind E bn) _ fmt bn block hf hall
      simp only [runBlocksList]
      rw [s2]
      simp only [hvb, s1, s3]
    | ok u =>
      have hEp : (runBlocksList fmt ((bn, block) :: rest) E).2.1
          = (runBlocksList fmt rest
              (applySect E bn
                (validate_block_core (dictFind E bn) fmt bn block).2.1)).2.1 := by
        simp [runBlocksList, hvb]
      rw [hEp]
      have hf0 : dictFind
          (applySect E bn (validate_block_core (dictFind E bn) fmt bn block).2.1) bn
          = rerunSect (dictFind E bn) fmt bn block :=
        dictFind_applySect_rerun E bn fmt block
      have hf : dictFind
          (runBlocksList fmt rest
            (applySect E bn
              (validate_block_core (dictFind E bn) fmt bn block).2.1)).2.1 bn
          = rerunSect (dictFind E bn) fmt bn block := by
        rw [runBlocksList_preserve_find fmt rest _ bn hkrest]
        exact hf0
      have hall : ∀ v,
          (validate_block_core (dictFind E bn) fmt bn block).2.1 = some v →
          allSetP (runBlocksList fmt rest
            (applySect E bn
              (validate_block_core (dictFind E bn) fmt bn block).2.1)).2.1 bn v
          ∧ dictHas (runBlocksList fmt rest
            (applySect E bn
              (validate_block_core (dictFind E bn) fmt bn block).2.1)).2.1 bn
            = true := by
        intro v hv
        refine runBlocksList_preserve_allSet fmt rest _ bn v hkrest ?_ ?_
        · rw [hv]
          exact allSetP_dictSet_self E bn v
        · rw [hv]
          exact dictHas_dictSet_self E bn v
      obtain ⟨s1, s2, s3⟩ := stage_rerun (dictFind E bn) _ fmt bn block hf hall
      simp only [runBlocksList]
      rw [s2]
      simp only [hvb, s1, s3]
      rw [ih _ hrest]

/-- Claim C1 (code bug): the claim says a `verify` call, after all checks
have run, raises exactly the single aggregate test failure iff at least
one error was collected.  The code violates it: with expected
`\x7bstatus_code: 500, body: \x7b"a.1": 2\x7d\x7d` against a 200
response with body `\x7b"a": [1]\x7d`, the status-code error *is*
collected, but block validation's `except KeyError` does not catch the
`IndexError` raised for the out-of-range sequence index, so `verify`
propagates an uncaught `IndexError` and the aggregate failure carrying
the collected error is never raised. -/
theorem claim_C1_failing_eval :
    (TResponse.init "t"
        [("status_code", Value.int 500),
         ("body", Value.dict [("a.1", Value.int 2)])]).map
      (fun st =>
        let a := st.verify
          { status_code := 200, headers := [],
            json := some (.dict [("a", .list [.int 1])]) } stubEnv id
        (a.1.errors, a.2))
    = Except.ok (["Status code was 200, expected 500"],
        Except.error (.uncaught (.indexError "list index out of range"))) := rfl

/-- Claim C3 (code bug): the claim says every key-path resolution
failure — missing mapping key or missing/out-of-range sequence index —
is recorded as one collected error naming the path and never aborts the
block.  The code only catches `KeyError` in `_validate_block`: with
expected body `\x7b"a.1": 2\x7d` against actual body
`\x7b"a": [1]\x7d`, the out-of-range index raises `IndexError`, no
`Key not present: a.1` error is collected, and verification aborts with
the uncaught exception instead of continuing. -/
theorem claim_C3_failing_eval :
    (TResponse.init "t" [("body", Value.dict [("a.1", Value.int 2)])]).map
      (fun st =>
        let a := st.verify
          { status_code := 200, headers := [],
            json := some (.dict [("a", .list [.int 1])]) } stubEnv id
        (a.1.errors, a.2))
    = Except.ok ([],
        Except.error (.uncaught (.indexError "list index out of range"))) := rfl

/-- Claim C4 (code bug): the claim says a save-extension returning a
value that is neither a mapping nor absent/empty is recorded as one
collected error and never propagates an exception.  Line 148 of the
code is `elif not isinstance(to_save, None)`, and `isinstance` with
`None` as its second argument raises `TypeError`: with a save `$ext`
function returning the integer `5`, `verify` propagates an uncaught
`TypeError`, collects nothing, and the `Unexpected return value`
message of line 149 is unreachable. -/
theorem claim_C4_failing_eval :
    (TResponse.init "t" [("save", Value.dict [("$ext", Value.str "mod:fn")])]).map
      (fun st =>
        let a := st.verify
          { status_code := 200, headers := [], json := none } intEnv id
        (a.1.errors, a.2))
    = Except.ok ([],
        Except.error (.uncaught
          (.typeError "isinstance() arg 2 must be a type or tuple of types"))) := rfl

/-- Claim C8: for expected
`\x7bsave: \x7bbody: \x7b"user_id": "id"\x7d\x7d, body: \x7b"status": "ok"\x7d\x7d`
against a 200 response with body `\x7b"id": 42, "status": "fail"\x7d`,
`verify` collects exactly the one value-mismatch error reporting
`fail` vs `ok` and raises the aggregate failure; and the pre-validation
stage (`preChecks`, everything `verify` runs before the three
`_validate_block` calls) already computes the saved values
`\x7b"user_id": 42\x7d`, even though the call then fails. -/
theorem claim_C8 :
    ((TResponse.init "t"
        [("save", Value.dict [("body", Value.dict [("user_id", Value.str "id")])]),
         ("body", Value.dict [("status", Value.str "ok")])]).map
      (fun st =>
        let a := st.verify
          { status_code := 200, headers := [],
            json := some (.dict [("id", .int 42), ("status", .str "fail")]) }
          stubEnv id
        (a.1.errors, a.2))
    = Except.ok
        (["Value mismatch: " ++ sq ++ "fail" ++ sq ++ " vs " ++ sq ++ "ok" ++ sq],
         Except.error (.testFail
           ("Test " ++ sq ++ "t" ++ sq ++ " failed:\n- Value mismatch: " ++
             sq ++ "fail" ++ sq ++ " vs " ++ sq ++ "ok" ++ sq))))
    ∧ ((TResponse.init "t"
        [("save", Value.dict [("body", Value.dict [("user_id", Value.str "id")])]),
         ("body", Value.dict [("status", Value.str "ok")])]).map
      (fun st =>
        (preChecks st.validate_ext (Value.int 200) (dictFind st.expected "save")
          { status_code := 200, headers := [],
            json := some (.dict [("id", .int 42), ("status", .str "fail")]) }
          stubEnv (.dict [("id", .int 42), ("status", .str "fail")])).2.2)
    = Except.ok (Except.ok [("user_id", Value.int 42)])) := ⟨rfl, rfl⟩

/-- Claim C5 counterexample: the claim says calling `verify` twice on
the same verifier with identical response data yields, on the second
call, the identical ordered set of collected error messages.  The error
collector persists across calls: with expected body
`\x7b"k": "v"\x7d` against body `\x7b\x7d`, the first call's collected
messages are `[Key not present: k]` but after the second call the
collector holds the message twice, and the second aggregate failure
renders both. -/
theorem claim_C5_counterexample :
    ((TResponse.init "t" [("body", Value.dict [("k", Value.str "v")])]).map
      (fun st =>
        let a := st.verify
          { status_code := 200, headers := [], json := some (.dict []) } stubEnv id
        let b := a.1.verify
          { status_code := 200, headers := [], json := some (.dict []) } stubEnv id
        (a.1.errors, b.1.errors))
    = Except.ok (["Key not present: k"],
        ["Key not present: k", "Key not present: k"]))
    ∧ (["Key not present: k", "Key not present: k"] ≠ ["Key not present: k"]) :=
  ⟨rfl, by simp⟩

/-- Claim C6 counterexample: the claim says no operation of `verify`
modifies any field of the stored expected specification, including
block validation of mapping sections containing `$ext`.  Block
validation pops `$ext` from the aliased stored mapping: with expected
headers `\x7b"$ext": "x"\x7d`, after `verify` the stored headers
section has become the empty mapping. -/
theorem claim_C6_counterexample :
    ((TResponse.init "t" [("headers", Value.dict [("$ext", Value.str "x")])]).map
      (fun st =>
        (st.expected,
         (st.verify { status_code := 200, headers := [], json := none }
           stubEnv id).1.expected))
    = Except.ok
        ([("status_code", Value.int 200),
          ("headers", Value.dict [("$ext", Value.str "x")])],
         [("status_code", Value.int 200), ("headers", Value.dict [])]))
    ∧ Value.dict ([] : List (String × Value)) ≠
        Value.dict [("$ext", Value.str "x")] :=
  ⟨rfl, by simp⟩

/-- Claim C9 counterexample: the claim says a response with no
redirect-location header and a requested redirect-query-params save
records exactly one collected error.  The code records two: one from
the redirect extraction and a second from the value saver, which sees
the (empty) redirect section as missing. -/
theorem claim_C9_counterexample :
    (TResponse.init "t"
        [("save", Value.dict
          [("redirect_query_params", Value.dict [("token", Value.str "t")])])]).map
      (fun st =>
        (st.verify { status_code := 200, headers := [], json := none }
          stubEnv id).1.errors)
    = Except.ok
        ["Wanted to save \x7b" ++ sq ++ "token" ++ sq ++ ": " ++ sq ++ "t" ++ sq ++
           "\x7d, but there was no redirect url in response",
         "No redirect_query_params in response (wanted to save \x7b" ++ sq ++
           "token" ++ sq ++ ": " ++ sq ++ "t" ++ sq ++ "\x7d)"] := rfl

theorem verify_fst (st : TResponse) (r : Response) (env : Value → WrappedFunction)
    (fmt : String → String) :
    (st.verify r env fmt).1 =
      { st with
        response := some r
        status_code := some r.status_code
        expected := (verifyCore st.validate_ext st.expected r env fmt).2.1
        errors := st.errors ++ (verifyCore st.validate_ext st.expected r env fmt).1 } := by
  simp only [TResponse.verify]
  cases hres : (verifyCore st.validate_ext st.expected r env fmt).2.2 with
  | error e => simp [hres]
  | ok saved =>
    simp only [hres]
    split <;> rfl

theorem verify_snd (st : TResponse) (r : Response) (env : Value → WrappedFunction)
    (fmt : String → String) :
    (st.verify r env fmt).2 =
      match (verifyCore st.validate_ext st.expected r env fmt).2.2 with
      | .error e => .error (.uncaught e)
      | .ok saved =>
        if (st.errors ++ (verifyCore st.validate_ext st.expected r env fmt).1).isEmpty
        then .ok saved
        else .error (.testFail
          ("Test " ++ sq ++ st.name ++ sq ++ " failed:\n" ++
            ("- " ++ joinSep "\n- "
              (st.errors ++ (verifyCore st.validate_ext st.expected r env fmt).1)))) := by
  simp only [TResponse.verify, TResponse._str_errors]
  cases hres : (verifyCore st.validate_ext st.expected r env fmt).2.2 with
  | error e => simp [hres]
  | ok saved =>
    simp only [hres]
    split <;> rfl

theorem verifyCore_stable (vext : Option Value) (E : List (String × Value))
    (r : Response) (env : Value → WrappedFunction) (fmt : String → String) :
    verifyCore vext (verifyCore vext E r env fmt).2.1 r env fmt
      = verifyCore vext E r env fmt := by
  cases hs : dictFind E "status_code" with
  | none => simp [verifyCore, hs]
  | some es =>
    cases hp : preChecks vext es (dictFind E "save") r env (responseBody r) with
    | mk e1 t =>
      cases t with
      | mk qp pres =>
        cases pres with
        | error e => simp [verifyCore, hs, hp]
        | ok saved =>
          have hne1 : ∀ p ∈ [("body", responseBody r), ("headers", headersValue r),
              ("redirect_query_params", qp)], p.1 ≠ ("status_code" : String) := by
            intro p hmem
            simp only [List.mem_cons, List.not_mem_nil, or_false] at hmem
            rcases hmem with rfl | rfl | rfl <;> simp
          have hne2 : ∀ p ∈ [("body", responseBody r), ("headers", headersValue r),
              ("redirect_query_params", qp)], p.1 ≠ ("save" : String) := by
            intro p hmem
            simp only [List.mem_cons, List.not_mem_nil, or_false] at hmem
            rcases hmem with rfl | rfl | rfl <;> simp
          have hnd : List.Pairwise (fun p q => p.1 ≠ q.1)
              [("body", responseBody r), ("headers", headersValue r),
               ("redirect_query_params", qp)] := by
            refine List.pairwise_cons.mpr ⟨?_, List.pairwise_cons.mpr
              ⟨?_, List.pairwise_singleton _ _⟩⟩
            · intro q hq
              simp only [List.mem_cons, List.not_mem_nil, or_false] at hq
              rcases hq with rfl | rfl <;> simp
            · intro q hq
              simp only [List.mem_cons, List.not_mem_nil, or_false] at hq
              rcases hq with rfl
              simp
          have hsf := runBlocksList_preserve_find fmt
            [("body", responseBody r), ("headers", headersValue r),
             ("redirect_query_params", qp)] E "status_code" hne1
          have hvf := runBlocksList_preserve_find fmt
            [("body", responseBody r), ("headers", headersValue r),
             ("redirect_query_params", qp)] E "save" hne2
          have hst := runBlocksList_stable fmt
            [("body", responseBody r), ("headers", headersValue r),
             ("redirect_query_params", qp)] E hnd
          simp only [verifyCore, hs, hp, runBlocks]
          simp only [hsf, hs, hvf, hp, hst]

theorem list_isEmpty_append (a b : List String) :
    (a ++ b).isEmpty = (a.isEmpty && b.isEmpty) := by
  cases a <;> cases b <;> simp [List.isEmpty]

/-- Claim C5 (amended): re-running `verify` on the same verifier with
identical response data appends the identical ordered list of error
messages that the first call appended, and yields identical saved
values; but the error collector persists across calls, so after the
second call the collector holds the first call's messages followed by a
second copy of the messages the first call appended (hence, whenever
the first call collected errors, the second aggregate failure renders
them twice; the two calls are observationally identical exactly when
the first call collected nothing). -/
theorem claim_C5_amended (st : TResponse) (r : Response)
    (env : Value → WrappedFunction) (fmt : String → String) :
    ((st.verify r env fmt).1.verify r env fmt).1.errors
        = (st.verify r env fmt).1.errors ++
            ((st.verify r env fmt).1.errors.drop st.errors.length)
    ∧ savedOf ((st.verify r env fmt).1.verify r env fmt).2
        = savedOf (st.verify r env fmt).2 := by
  have h1 := verify_fst st r env fmt
  have hstable := verifyCore_stable st.validate_ext st.expected r env fmt
  have hvext : (st.verify r env fmt).1.validate_ext = st.validate_ext := by
    rw [h1]
  have hexp : (st.verify r env fmt).1.expected
      = (verifyCore st.validate_ext st.expected r env fmt).2.1 := by
    rw [h1]
  have herr : (st.verify r env fmt).1.errors
      = st.errors ++ (verifyCore st.validate_ext st.expected r env fmt).1 := by
    rw [h1]
  have hcore2 : verifyCore (st.verify r env fmt).1.validate_ext
      (st.verify r env fmt).1.expected r env fmt
      = verifyCore st.validate_ext st.expected r env fmt := by
    rw [hvext, hexp, hstable]
  constructor
  · have h2 := verify_fst (st.verify r env fmt).1 r env fmt
    rw [h2]
    simp only [hcore2, herr]
    rw [List.drop_left]
  · rw [verify_snd (st.verify r env fmt).1 r env fmt, verify_snd st r env fmt,
      hcore2, herr]
    cases hres : (verifyCore st.validate_ext st.expected r env fmt).2.2 with
    | error e => rfl
    | ok saved =>
      simp only
      by_cases hemp : (st.errors ++
          (verifyCore st.validate_ext st.expected r env fmt).1).isEmpty = true
      · have hemp2 : ((st.errors ++
            (verifyCore st.validate_ext st.expected r env fmt).1) ++
            (verifyCore st.validate_ext st.expected r env fmt).1).isEmpty = true := by
          rw [list_isEmpty_append] at hemp ⊢
          rw [list_isEmpty_append]
          simp only [Bool.and_eq_true] at hemp ⊢
          exact ⟨⟨hemp.1, hemp.2⟩, hemp.2⟩
        rw [if_pos hemp, if_pos hemp2]
      · have hemp2 : ¬ ((st.errors ++
            (verifyCore st.validate_ext st.expected r env fmt).1) ++
            (verifyCore st.validate_ext st.expected r env fmt).1).isEmpty = true := by
          intro hc
          apply hemp
          rw [list_isEmpty_append] at hc
          simp only [Bool.and_eq_true] at hc
          exact hc.1
        rw [if_neg hemp, if_neg hemp2]
        rfl


theorem applySect_vbc_popSect (E : List (String × Value)) (bn : String)
    (fmt : String → String) (block : Value) :
    applySect E bn (validate_block_core (dictFind E bn) fmt bn block).2.1
      = popSect E bn := by
  cases hf : dictFind E bn with
  | none => simp [validate_block_core, popExtOf, applySect, popSect, hf]
  | some v =>
    cases v with
    | null => simp [validate_block_core, popExtOf, applySect, popSect, hf]
    | bool b => simp [validate_block_core, popExtOf, applySect, popSect, hf]
    | int n => simp [validate_block_core, popExtOf, applySect, popSect, hf]
    | str st => simp [validate_block_core, popExtOf, applySect, popSect, hf]
    | list xs => simp [validate_block_core, popExtOf, applySect, popSect, hf]
    | dict kvs =>
      by_cases he : kvs.isEmpty = true
      · simp [validate_block_core, popExtOf, applySect, popSect, hf, he]
      · simp [validate_block_core, popExtOf, applySect, popSect, hf, he]

theorem runBlocksList_ok_expected (fmt : String → String)
    (items : List (String × Value)) (E : List (String × Value))
    (h : ∀ e, (runBlocksList fmt items E).2.2 ≠ Except.error e) :
    (runBlocksList fmt items E).2.1
      = items.foldl (fun X p => popSect X p.1) E := by
  induction items generalizing E with
  | nil => rfl
  | cons hd rest ih =>
    obtain ⟨bn, block⟩ := hd
    cases hvb : (validate_block_core (dictFind E bn) fmt bn block).2.2 with
    | error e =>
      exfalso
      apply h e
      simp [runBlocksList, hvb]
    | ok u =>
      have h' : ∀ e, (runBlocksList fmt rest
          (applySect E bn
            (validate_block_core (dictFind E bn) fmt bn block).2.1)).2.2
          ≠ Except.error e := by
        intro e hc
        apply h e
        simp [runBlocksList, hvb, hc]
      simp only [runBlocksList, hvb]
      rw [ih _ h']
      simp only [List.foldl_cons]
      rw [applySect_vbc_popSect]

/-- Claim C6 (amended): provided `verify` propagates no uncaught
exception (so every block validation runs), the only mutation `verify`
makes to the stored expected specification is removing the reserved
`$ext` key from each of the three stored section mappings that is a
non-empty mapping — a section whose only key was `$ext` is left as an
empty mapping; every other key of the expected spec, and sections that
are absent, falsy or non-mappings, are unchanged. -/
theorem claim_C6_amended (st : TResponse) (r : Response)
    (env : Value → WrappedFunction) (fmt : String → String)
    (h : ∀ e, (st.verify r env fmt).2 ≠ Except.error (VerifyErr.uncaught e)) :
    (st.verify r env fmt).1.expected = popExts st.expected := by
  have hcore : ∀ e, (verifyCore st.validate_ext st.expected r env fmt).2.2
      ≠ Except.error e := by
    intro e hc
    apply h e
    rw [verify_snd st r env fmt, hc]
  have hexp : (st.verify r env fmt).1.expected
      = (verifyCore st.validate_ext st.expected r env fmt).2.1 := by
    rw [verify_fst]
  rw [hexp]
  cases hs : dictFind st.expected "status_code" with
  | none =>
    exfalso
    exact hcore (RunErr.keyError "status_code") (by simp [verifyCore, hs])
  | some es =>
    cases hp : preChecks st.validate_ext es (dictFind st.expected "save") r env
        (responseBody r) with
    | mk e1 t =>
      cases t with
      | mk qp pres =>
        cases pres with
        | error e =>
          exfalso
          exact hcore e (by simp [verifyCore, hs, hp])
        | ok saved =>
          have hrb : ∀ e, (runBlocksList fmt
              [("body", responseBody r), ("headers", headersValue r),
               ("redirect_query_params", qp)] st.expected).2.2
              ≠ Except.error e := by
            intro e hc
            apply hcore e
            simp [verifyCore, hs, hp, runBlocks, hc]
          have := runBlocksList_ok_expected fmt
            [("body", responseBody r), ("headers", headersValue r),
             ("redirect_query_params", qp)] st.expected hrb
          simp only [verifyCore, hs, hp, runBlocks]
          rw [this]
          rfl

/-- Witness for the amended claim C6 at a concrete input: a verifier
whose expected headers section is `\x7b"$ext": "x"\x7d` completes
without an uncaught exception, and its stored expected spec afterwards
is exactly the `$ext`-popped version. -/
theorem claim_C6_amended_witness :
    ((⟨"t", none, [("status_code", Value.int 200),
        ("headers", Value.dict [("$ext", Value.str "x")])], none, none, []⟩ :
        TResponse).verify
      { status_code := 200, headers := [], json := none } stubEnv id).1.expected
    = popExts [("status_code", Value.int 200),
        ("headers", Value.dict [("$ext", Value.str "x")])] :=
  claim_C6_amended
    ⟨"t", none, [("status_code", Value.int 200),
      ("headers", Value.dict [("$ext", Value.str "x")])], none, none, []⟩
    { status_code := 200, headers := [], json := none } stubEnv id
    (by
      intro e hc
      have hv : ((⟨"t", none, [("status_code", Value.int 200),
          ("headers", Value.dict [("$ext", Value.str "x")])], none, none, []⟩ :
          TResponse).verify
          { status_code := 200, headers := [], json := none } stubEnv id).2
          = Except.ok [] := rfl
      rw [hv] at hc
      exact Except.noConfusion hc)

/-- Claim C9 (amended): for a response with no redirect-location
header, a requested redirect-query-params save produces exactly *two*
collected errors — the redirect extraction records one naming the
missing redirect source and treats the section as an empty mapping, and
the value saver then records one more reporting the empty section — and
no redirect values are saved; when no such save is requested, the
absence of the header records no error at all. -/
theorem claim_C9_amended (sv : Value) (r : Response) (spec : Value)
    (hloc : headerFind r.headers "location" = none) :
    (pyInStr "redirect_query_params" sv = Except.ok true →
     pySubscriptStr sv "redirect_query_params" = Except.ok spec →
     redirect_extract sv r
        = Except.ok (["Wanted to save " ++ pyStr spec ++
            ", but there was no redirect url in response"], Value.dict [])
     ∧ save_value_core (some sv) "redirect_query_params" (Value.dict [])
        = (["No redirect_query_params in response (wanted to save " ++
            pyStr spec ++ ")"], Except.ok []))
    ∧ (pyInStr "redirect_query_params" sv = Except.ok false →
       redirect_extract sv r = Except.ok ([], Value.dict [])) := by
  constructor
  · intro hin hsub
    constructor
    · simp [redirect_extract, hloc, hin, hsub]
    · simp [save_value_core, hsub, Value.isTruthy]
  · intro hin
    simp [redirect_extract, hloc, hin]

/-- Witness for the amended claim C9 at the spec's scenario-3 input. -/
theorem claim_C9_amended_witness :
    (headerFind ([] : List (String × String)) "location" = none)
    ∧ ((pyInStr "redirect_query_params"
          (Value.dict [("redirect_query_params", Value.dict [("token", Value.str "t")])])
          = Except.ok true →
        pySubscriptStr
          (Value.dict [("redirect_query_params", Value.dict [("token", Value.str "t")])])
          "redirect_query_params" = Except.ok (Value.dict [("token", Value.str "t")]) →
        redirect_extract
          (Value.dict [("redirect_query_params", Value.dict [("token", Value.str "t")])])
          { status_code := 200, headers := [], json := none }
          = Except.ok (["Wanted to save " ++ pyStr (Value.dict [("token", Value.str "t")]) ++
              ", but there was no redirect url in response"], Value.dict [])
        ∧ save_value_core
            (some (Value.dict [("redirect_query_params", Value.dict [("token", Value.str "t")])]))
            "redirect_query_params" (Value.dict [])
          = (["No redirect_query_params in response (wanted to save " ++
              pyStr (Value.dict [("token", Value.str "t")]) ++ ")"], Except.ok []))
       ∧ (pyInStr "redirect_query_params"
            (Value.dict [("redirect_query_params", Value.dict [("token", Value.str "t")])])
            = Except.ok false →
          redirect_extract
            (Value.dict [("redirect_query_params", Value.dict [("token", Value.str "t")])])
            { status_code := 200, headers := [], json := none }
            = Except.ok ([], Value.dict []))) :=
  ⟨rfl, claim_C9_amended
    (Value.dict [("redirect_query_params", Value.dict [("token", Value.str "t")])])
    { status_code := 200, headers := [], json := none }
    (Value.dict [("token", Value.str "t")]) rfl⟩


theorem preChecks_errors_head (vext : Option Value) (es : Value)
    (saveOpt : Option Value) (r : Response) (env : Value → WrappedFunction)
    (body : Value) :
    ∃ t, (preChecks vext es saveOpt r env body).1
      = statusErrors es r.status_code body ++ t := by
  simp only [preChecks]
  repeat' split
  all_goals exact ⟨_, by simp only [List.append_assoc]; rfl⟩

theorem verifyCore_errors_head (vext : Option Value)
    (E : List (String × Value)) (r : Response) (env : Value → WrappedFunction)
    (fmt : String → String) (es : Value)
    (hs : dictFind E "status_code" = some es) :
    ∃ t, (verifyCore vext E r env fmt).1
      = statusErrors es r.status_code (responseBody r) ++ t := by
  obtain ⟨t, ht⟩ := preChecks_errors_head vext es (dictFind E "save") r env
    (responseBody r)
  simp only [verifyCore, hs]
  cases hp : preChecks vext es (dictFind E "save") r env (responseBody r) with
  | mk e1 rest =>
    cases rest with
    | mk qp pres =>
      rw [hp] at ht
      cases pres with
      | error e => exact ⟨t, ht⟩
      | ok saved =>
        have ht' : e1 = statusErrors es r.status_code (responseBody r) ++ t := ht
        refine ⟨t ++ (runBlocks E fmt (responseBody r) (headersValue r) qp).1, ?_⟩
        simp only
        rw [ht', List.append_assoc]

/-- Claim C7: whenever the actual status code differs from the stored
expected status code, the status check contributes exactly one error,
placed first among the messages this `verify` call appends, and that
message carries the indented pretty-printed body dump if and only if
the actual status code lies in 400..499; otherwise it reports only the
two codes. -/
theorem claim_C7 (st : TResponse) (r : Response) (env : Value → WrappedFunction)
    (fmt : String → String) (es : Value)
    (hs : dictFind st.expected "status_code" = some es)
    (hm : pyEq (Value.int r.status_code) es = false) :
    ∃ rest, (st.verify r env fmt).1.errors
      = st.errors ++
        (("Status code was " ++ toString r.status_code ++ ", expected " ++ pyStr es
          ++ (if 400 ≤ r.status_code ∧ r.status_code < 500
              then ":\n" ++ _indent_err_text (jsonDumps (responseBody r)) else ""))
          :: rest) := by
  obtain ⟨t, ht⟩ := verifyCore_errors_head st.validate_ext st.expected r env fmt
    es hs
  have hse : statusErrors es r.status_code (responseBody r)
      = [("Status code was " ++ toString r.status_code ++ ", expected " ++ pyStr es
          ++ (if 400 ≤ r.status_code ∧ r.status_code < 500
              then ":\n" ++ _indent_err_text (jsonDumps (responseBody r)) else ""))] := by
    simp only [statusErrors, hm, Bool.false_eq_true, if_false]
    by_cases h4 : 400 ≤ r.status_code ∧ r.status_code < 500
    · rw [if_pos h4, if_pos h4]
      simp [String.append_assoc]
    · rw [if_neg h4, if_neg h4]
      rw [String.append_empty]
  refine ⟨t, ?_⟩
  rw [verify_fst]
  simp only
  rw [ht, hse]
  rfl

/-- Witness for claim C7 at a concrete input: a 404 response against an
expected status code of 200 collects the status error with the indented
body dump first. -/
theorem claim_C7_witness :
    (dictFind [("status_code", Value.int 200)] "status_code"
      = some (Value.int 200))
    ∧ (pyEq (Value.int 404) (Value.int 200) = false)
    ∧ (∃ rest, ((⟨"t", none, [("status_code", Value.int 200)], none, none, []⟩ :
          TResponse).verify
        { status_code := 404, headers := [],
          json := some (Value.dict [("err", Value.str "bad")]) } stubEnv id).1.errors
      = [] ++
        (("Status code was " ++ toString (404 : Int) ++ ", expected " ++
          pyStr (Value.int 200)
          ++ (if 400 ≤ (404 : Int) ∧ (404 : Int) < 500
              then ":\n" ++ _indent_err_text (jsonDumps (responseBody
                { status_code := 404, headers := [],
                  json := some (Value.dict [("err", Value.str "bad")]) })) else ""))
          :: rest)) :=
  ⟨rfl, rfl,
    claim_C7 ⟨"t", none, [("status_code", Value.int 200)], none, none, []⟩
      { status_code := 404, headers := [],
        json := some (Value.dict [("err", Value.str "bad")]) } stubEnv id
      (Value.int 200) rfl rfl⟩

theorem validateFnErrors_congr (vext : Option Value)
    (env1 env2 : Value → WrappedFunction) (r : Response)
    (hv : ∀ v, vext = some v → env1 v = env2 v) :
    validateFnErrors vext env1 r = validateFnErrors vext env2 r := by
  cases vext with
  | none => rfl
  | some spec =>
    simp only [validateFnErrors]
    rw [hv spec rfl]

theorem saveExtStep_congr (saveOpt : Option Value)
    (env1 env2 : Value → WrappedFunction) (r : Response)
    (hs : ∀ sv v, saveOpt = some sv → pySubscriptStr sv "$ext" = Except.ok v →
      env1 v = env2 v) :
    saveExtStep saveOpt env1 r = saveExtStep saveOpt env2 r := by
  funext saved
  cases saveOpt with
  | none => rfl
  | some sv =>
    simp only [saveExtStep]
    cases hsub : pySubscriptStr sv "$ext" with
    | error e => cases e <;> rfl
    | ok extSpec =>
      simp only [hs sv extSpec rfl hsub]

theorem preChecks_congr (vext : Option Value) (saveOpt : Option Value)
    (r : Response) (env1 env2 : Value → WrappedFunction) (body : Value)
    (hv : ∀ v, vext = some v → env1 v = env2 v)
    (hs : ∀ sv v, saveOpt = some sv → pySubscriptStr sv "$ext" = Except.ok v →
      env1 v = env2 v) :
    ∀ es, preChecks vext es saveOpt r env1 body
      = preChecks vext es saveOpt r env2 body := by
  intro es
  simp only [preChecks, validateFnErrors_congr vext env1 env2 r hv,
    saveExtStep_congr saveOpt env1 env2 r hs]

theorem verifyCore_env_congr (vext : Option Value) (E : List (String × Value))
    (r : Response) (env1 env2 : Value → WrappedFunction) (fmt : String → String)
    (hv : ∀ v, vext = some v → env1 v = env2 v)
    (hs : ∀ sv v, dictFind E "save" = some sv →
      pySubscriptStr sv "$ext" = Except.ok v → env1 v = env2 v) :
    verifyCore vext E r env1 fmt = verifyCore vext E r env2 fmt := by
  simp only [verifyCore,
    preChecks_congr vext (dictFind E "save") r env1 env2 (responseBody r) hv hs]

/-- Claim C10: `verify`'s result does not depend on how the
extension-resolution environment interprets any `$ext` reference other
than the expected body's `$ext` captured at construction
(`validate_ext`) and the `$ext` entry of the stored `save` section: two
environments agreeing on those two references give identical `verify`
results, however they differ elsewhere — in particular a `$ext` key
inside the expected `headers` or `redirect_query_params` mapping is
removed before comparison (see the claim C6 theorems) and its referenced
function is never invoked. -/
theorem claim_C10 (st : TResponse) (r : Response)
    (env1 env2 : Value → WrappedFunction) (fmt : String → String)
    (hv : ∀ v, st.validate_ext = some v → env1 v = env2 v)
    (hs : ∀ sv v, dictFind st.expected "save" = some sv →
      pySubscriptStr sv "$ext" = Except.ok v → env1 v = env2 v) :
    st.verify r env1 fmt = st.verify r env2 fmt := by
  have h := verifyCore_env_congr st.validate_ext st.expected r env1 env2 fmt hv hs
  simp only [TResponse.verify, h]

/-- Witness for claim C10 at a concrete input: a verifier whose
expected headers section holds a `$ext` reference gives identical
results under two environments that differ everywhere (the reference is
never invoked). -/
theorem claim_C10_witness :
    (⟨"t", none, [("status_code", Value.int 200),
        ("headers", Value.dict [("$ext", Value.str "ref")])], none, none, []⟩ :
        TResponse).verify
      { status_code := 200, headers := [], json := none } stubEnv id
    = (⟨"t", none, [("status_code", Value.int 200),
        ("headers", Value.dict [("$ext", Value.str "ref")])], none, none, []⟩ :
        TResponse).verify
      { status_code := 200, headers := [], json := none } intEnv id :=
  claim_C10
    ⟨"t", none, [("status_code", Value.int 200),
      ("headers", Value.dict [("$ext", Value.str "ref")])], none, none, []⟩
    { status_code := 200, headers := [], json := none } stubEnv intEnv id
    (fun v h => Option.noConfusion h)
    (fun sv v hfind hsub => by
      have : dictFind [("status_code", Value.int 200),
          ("headers", Value.dict [("$ext", Value.str "ref")])] "save" = none := rfl
      rw [this] at hfind
      exact Option.noConfusion hfind)

theorem format_keys_entries_append (f : String → String)
    (a b : List (String × Value)) :
    format_keys_entries f (a ++ b)
      = format_keys_entries f a ++ format_keys_entries f b := by
  induction a with
  | nil => rfl
  | cons p rest ih =>
    obtain ⟨k, v⟩ := p
    simp [format_keys_entries, ih]

theorem validate_keys_insert_null (block : Value) (split : List String)
    (joined : String) (a : Value)
    (h : recurse_access_key block split = Except.ok a)
    (pre post : List (List String × String × Value)) :
    validate_keys block (pre ++ (split, joined, Value.null) :: post)
      = validate_keys block (pre ++ post) := by
  induction pre with
  | nil =>
    simp only [List.nil_append, validate_keys, h]
    cases hp : pyEq a Value.null <;> simp [hp]
  | cons e pre ih =>
    obtain ⟨s2, j2, v2⟩ := e
    simp only [List.cons_append, validate_keys]
    cases hr : recurse_access_key block s2 with
    | error err => cases err <;> simp [ih]
    | ok av =>
      by_cases hpe : pyEq av v2 = true
      · simp [hpe, ih]
      · cases v2 <;> simp [hpe, ih]

/-- Claim C2: a presence-sentinel entry — an expected key whose value is
`null` — whose key-path resolves successfully against the actual block
contributes no error and no abort to `_validate_block`'s per-key loop
(`validate_keys` over the items `yield_keyvals` derives from the
`format_keys`-substituted expected mapping; the templating substitution
preserves `null` values and keys): the loop behaves exactly as if the
entry were absent, whatever the actual value at that path is, so `null`
is never a literal expected-null assertion. -/
theorem claim_C2 (fmt : String → String) (block : Value)
    (kvs1 kvs2 : List (String × Value)) (k : String) (a : Value)
    (h : recurse_access_key block (strSplitOnChar (Char.ofNat 46) k)
      = Except.ok a) :
    validate_keys block
        (dictItems (format_keys_entries fmt (kvs1 ++ (k, Value.null) :: kvs2)))
      = validate_keys block
        (dictItems (format_keys_entries fmt (kvs1 ++ kvs2))) := by
  rw [format_keys_entries_append, format_keys_entries_append]
  have hnull : format_keys fmt Value.null = Value.null := rfl
  simp only [format_keys_entries, hnull, dictItems, List.map_append, List.map_cons]
  exact validate_keys_insert_null block _ k a h _ _

/-- Witness for claim C2 at a concrete input: an expected `null` at key
`x`, which resolves to `7` in the actual block, contributes nothing. -/
theorem claim_C2_witness :
    (recurse_access_key (Value.dict [("x", Value.int 7)])
        (strSplitOnChar (Char.ofNat 46) "x") = Except.ok (Value.int 7))
    ∧ validate_keys (Value.dict [("x", Value.int 7)])
        (dictItems (format_keys_entries id [("x", Value.null)]))
      = validate_keys (Value.dict [("x", Value.int 7)])
        (dictItems (format_keys_entries id [])) :=
  ⟨rfl, claim_C2 id (Value.dict [("x", Value.int 7)]) [] [] "x" (Value.int 7) rfl⟩


end Tavern

